import Mathlib

/-!
# Verification of the tsq match-to-model projection pipeline

Shallow embedding of the core of `github.com/arjunmahishi/tsq`:
the data model (`tsq/types.go`, reconstructed from the shared `types`
package and the uses in `tsq/codesitter.go`), the classifier / projector
(`parseSymbolFromMatch`, `getVisibility`, `buildFuncSignature`,
`extractReceiverType`, `truncateSource`, `extractSymbols`,
`findReferences`, `buildOutline`) and the aggregator pipelines
(`Query`, `Symbols`, `Outline`, `Refs`) of `tsq/codesitter.go`.

Go `int`/`int64` values are modelled as `Int` (no overflow is relevant
to any statement proved here), Go strings as Lean `String`, Go byte
slices holding UTF-8 source text as `String`, and Go maps built by
iterating a slice (`captures[c.Name] = c`) by a last-write-wins lookup
over the original list.  Fallible Go functions returning `error` are
modelled with `Except String`.  The concurrent worker pools are modelled
by their sequential denotation: the multiset of results is independent of
the interleaving, the spec guarantees no cross-file ordering, and the
worker-count clamp is modelled separately (`effectiveWorkerCount`).
External collaborators (language registry, tree-sitter query
compilation, file discovery, file parsing) are abstracted as an
environment record `Env`, exactly at the interface `codesitter.go`
consumes.
-/

namespace tsq

/-- `types.Position`: a location in a source file (1-based line/column). -/
structure Position where
  Line : Int
  Column : Int
deriving DecidableEq, Repr

/-- `types.Range`: a span in a source file. -/
structure Range where
  Start : Position
  End : Position
deriving DecidableEq, Repr

/-- The zero value of `Range` (Go zero-initialisation). -/
def zeroRange : Range := ⟨⟨0, 0⟩, ⟨0, 0⟩⟩

/-- `types.CaptureResult`: a single capture within a query match. -/
structure CaptureResult where
  Name : String
  NodeType : String
  Text : String
  Range : Range
deriving DecidableEq, Repr

/-- `types.QueryMatch`: a raw tree-sitter query match. -/
structure QueryMatch where
  File : String
  Pattern : Int
  Captures : List CaptureResult
deriving DecidableEq, Repr

/-- `types.Symbol`: a code symbol.  Optional Go fields (`Signature`,
`Source`, `Receiver`, `Doc`) carry the zero value `""` when absent. -/
structure Symbol where
  Name : String
  Kind : String
  Visibility : String
  File : String
  Range : Range
  Signature : String
  Source : String
  Receiver : String
  Doc : String
deriving DecidableEq, Repr

/-- The zero value of `Symbol` (Go `var sym Symbol`). -/
def zeroSymbol : Symbol :=
  { Name := "", Kind := "", Visibility := "", File := "", Range := zeroRange,
    Signature := "", Source := "", Receiver := "", Doc := "" }

/-- `types.ImportInfo`: an import statement. -/
structure ImportInfo where
  Path : String
  Alias : String
deriving DecidableEq, Repr

/-- `types.FileOutline`: the structural overview of a file. -/
structure FileOutline where
  File : String
  Package : String
  Imports : List ImportInfo
  Symbols : List Symbol
deriving DecidableEq, Repr

/-- `types.Reference`: a usage of a symbol.  `Context` is `""` when absent. -/
structure Reference where
  Symbol : String
  Kind : String
  File : String
  Position : Position
  Context : String
deriving DecidableEq, Repr

/-- `types.FileJob`: a file to be processed. -/
structure FileJob where
  AbsPath : String
  DisplayPath : String
deriving DecidableEq, Repr

/-- `tsq.SymbolsResult` (codesitter.go): output format for symbols extraction. -/
structure SymbolsResult where
  File : String
  Symbols : List Symbol
deriving DecidableEq, Repr

/-- `tsq.RefsResult` (codesitter.go): output format for reference finding. -/
structure RefsResult where
  Symbol : String
  References : List Reference
deriving DecidableEq, Repr

/-- `tsq.QueryOptions` (options.go). -/
structure QueryOptions where
  Query : String
  Language : String
  Path : String
  File : String
  Jobs : Int
  MaxBytes : Int
deriving DecidableEq, Repr

/-- `tsq.SymbolsOptions` (options.go). -/
structure SymbolsOptions where
  Language : String
  Path : String
  File : String
  Visibility : String
  IncludeSource : Bool
  MaxSourceLines : Int
  Jobs : Int
  MaxBytes : Int
deriving DecidableEq, Repr

/-- `tsq.OutlineOptions` (options.go). -/
structure OutlineOptions where
  Language : String
  File : String
  IncludeSource : Bool
  MaxSourceLines : Int
deriving DecidableEq, Repr

/-- `tsq.RefsOptions` (options.go). -/
structure RefsOptions where
  Symbol : String
  Language : String
  Path : String
  File : String
  IncludeContext : Bool
  Jobs : Int
  MaxBytes : Int
deriving DecidableEq, Repr

/-- Lookup in the Go map built by
`captures := make(map[string]CaptureResult); for _, c := range match.Captures { captures[c.Name] = c }`:
iterating the capture list in order with overwrite gives last-write-wins. -/
def capturesGet (cs : List CaptureResult) (name : String) : Option CaptureResult :=
  cs.foldl (fun acc c => if c.Name = name then some c else acc) none

/-- First byte of the UTF-8 encoding of a character: in Go, `name[0]`
indexes the byte string, so for a multi-byte first character it yields
only the leading byte of the encoding. -/
def utf8FirstByte (c : Char) : Nat :=
  if c.toNat < 0x80 then c.toNat
  else if c.toNat < 0x800 then 0xC0 ||| (c.toNat >>> 6)
  else if c.toNat < 0x10000 then 0xE0 ||| (c.toNat >>> 12)
  else 0xF0 ||| (c.toNat >>> 18)

/-- Go `unicode.IsUpper` consults the full Unicode `Upper` range table;
modelled here by the rows for the code points exercised in this
development: Basic Latin (`A`–`Z`), Latin-1 Supplement
(`À`–`Ö`, `Ø`–`Þ`) and Greek (`Ά`, `Έ`–`Ί`, `Ό`, `Ύ`–`Ώ`, `Α`–`Ρ`,
`Σ`–`Ϋ`).  Every code point tested by a theorem below lies in these
blocks, where this table agrees exactly with Go's. -/
def unicodeIsUpper (r : Nat) : Bool :=
  (0x41 ≤ r && r ≤ 0x5A) ||
  (0xC0 ≤ r && r ≤ 0xD6) ||
  (0xD8 ≤ r && r ≤ 0xDE) ||
  (r == 0x386) || (0x388 ≤ r && r ≤ 0x38A) || (r == 0x38C) ||
  (0x38E ≤ r && r ≤ 0x38F) ||
  (0x391 ≤ r && r ≤ 0x3A1) || (0x3A3 ≤ r && r ≤ 0x3AB)

/-- `getVisibility` (codesitter.go lines 532–541): `r := rune(name[0])`
converts the FIRST BYTE of the name to a rune and tests
`unicode.IsUpper(r)`. -/
def getVisibility (name : String) : String :=
  match name.data with
  | [] => "private"
  | c :: _ => if unicodeIsUpper (utf8FirstByte c) then "public" else "private"

/-- Modelled from the spec: "the symbol name's first rune, classified as
upper-case → public, otherwise → private" — the visibility rule the spec
states, decoding the first character (rune), for comparison with the
code's byte-level `getVisibility`. -/
def getVisibilityFirstRune (name : String) : String :=
  match name.data with
  | [] => "private"
  | c :: _ => if unicodeIsUpper c.toNat then "public" else "private"

/-- Go `strings.TrimSpace`, modelled as trimming ASCII whitespace from
both ends (`String.trim`); all context lines considered here are ASCII. -/
def trimSpace (s : String) : String := s.trim

/-- Whitespace class of Go `unicode.IsSpace` restricted to the ASCII
whitespace characters (the only ones arising here). -/
def isSpaceChar (c : Char) : Bool :=
  c = ' ' || c = '\t' || c = '\n' || c = '\x0b' || c = '\x0c' || c = '\r'

/-- Go `strings.Fields`: split around runs of whitespace. -/
def fields (s : String) : List String :=
  (s.split isSpaceChar).filter (fun t => t ≠ "")

/-- `truncateSource` (codesitter.go lines 584–595). -/
def truncateSource (source : String) (maxLines : Int) : String :=
  if maxLines ≤ 0 then source
  else
    let lines := source.splitOn "\n"
    if (lines.length : Int) ≤ maxLines then source
    else String.intercalate "\n" (lines.take maxLines.toNat) ++ "\n..."

/-- `buildFuncSignature` (codesitter.go lines 543–567), over the capture
map of one match (`capturesGet`). -/
def buildFuncSignature (captures : List CaptureResult) : String :=
  let sb := "func"
  let sb := match capturesGet captures "receiver" with
    | some recv => sb ++ " " ++ recv.Text
    | none => sb
  let sb := match capturesGet captures "name" with
    | some name => sb ++ " " ++ name.Text
    | none => sb
  let sb := match capturesGet captures "params" with
    | some params => sb ++ params.Text
    | none => sb
  match capturesGet captures "result" with
  | some result => sb ++ " " ++ result.Text
  | none => sb

/-- `extractReceiverType` (codesitter.go lines 569–582):
`"(r *MyType)" -> "MyType"`. -/
def extractReceiverType (receiver : String) : String :=
  let receiver := if receiver.startsWith "(" then receiver.drop 1 else receiver
  let receiver := if receiver.endsWith ")" then receiver.dropRight 1 else receiver
  let parts := fields receiver
  if parts.length ≥ 2 then
    let t := parts.getLastD ""
    if t.startsWith "*" then t.drop 1 else t
  else if parts.length = 1 then
    let t := parts.headD ""
    if t.startsWith "*" then t.drop 1 else t
  else receiver

/-- The kind-disambiguation chain of `parseSymbolFromMatch`
(codesitter.go lines 456–507): the `if/else-if` cascade over capture
presence, checked in the fixed order const → var → function → method →
type, rejecting (`return nil`) when none is present. -/
def classifySymbol (m : QueryMatch) : Option Symbol :=
  match capturesGet m.Captures "const" with
    | some _ =>
      let sym := { zeroSymbol with Kind := "const" }
      some (match capturesGet m.Captures "name" with
        | some name => { sym with Name := name.Text, Range := name.Range }
        | none => sym)
    | none =>
    match capturesGet m.Captures "var" with
    | some _ =>
      let sym := { zeroSymbol with Kind := "var" }
      some (match capturesGet m.Captures "name" with
        | some name => { sym with Name := name.Text, Range := name.Range }
        | none => sym)
    | none =>
    match capturesGet m.Captures "function" with
    | some _ =>
      let sym := { zeroSymbol with Kind := "function" }
      let sym := match capturesGet m.Captures "name" with
        | some name => { sym with Name := name.Text, Range := name.Range }
        | none => sym
      some { sym with Signature := buildFuncSignature m.Captures }
    | none =>
    match capturesGet m.Captures "method" with
    | some _ =>
      let sym := { zeroSymbol with Kind := "method" }
      let sym := match capturesGet m.Captures "name" with
        | some name => { sym with Name := name.Text, Range := name.Range }
        | none => sym
      let sym := match capturesGet m.Captures "receiver" with
        | some recv => { sym with Receiver := extractReceiverType recv.Text }
        | none => sym
      some { sym with Signature := buildFuncSignature m.Captures }
    | none =>
    match capturesGet m.Captures "type" with
    | some typeDef =>
      let kind := match capturesGet m.Captures "type_def" with
        | some typeSpec =>
          if typeSpec.NodeType.startsWith "struct" then "struct"
          else if typeSpec.NodeType.startsWith "interface" then "interface"
          else "type"
        | none => "type"
      let sym := { zeroSymbol with Kind := kind }
      let sym := match capturesGet m.Captures "name" with
        | some name => { sym with Name := name.Text, Range := name.Range }
        | none => sym
      some { sym with Range := typeDef.Range }
    | none => none

set_option linter.unusedVariables false in
/-- `parseSymbolFromMatch` (codesitter.go lines 446–530): the
classification chain (`classifySymbol`), then rejection of empty names,
the visibility rule, the optional source snippet from the first
outermost capture, and the file tag.  The `source` parameter is carried
but, as in the Go function, never used. -/
def parseSymbolFromMatch (m : QueryMatch) (source : String)
    (includeSource : Bool) (maxSourceLines : Int) : Option Symbol :=
  match classifySymbol m with
  | none => none
  | some sym0 =>
    if sym0.Name = "" then none
    else
      let sym1 := { sym0 with Visibility := getVisibility sym0.Name }
      let sym2 :=
        if includeSource then
          match m.Captures.find? (fun c =>
              c.Name == "function" || c.Name == "method" || c.Name == "type" ||
              c.Name == "const" || c.Name == "var") with
          | some c =>
            { sym1 with Source := truncateSource c.Text maxSourceLines,
                        Range := c.Range }
          | none => sym1
        else sym1
      some { sym2 with File := m.File }

/-- `extractSymbols` (codesitter.go lines 417–444). -/
def extractSymbols (ms : List QueryMatch) (source : String)
    (visibility : String) (includeSource : Bool) (maxSourceLines : Int) :
    List Symbol :=
  ms.filterMap (fun m =>
    match parseSymbolFromMatch m source includeSource maxSourceLines with
    | none => none
    | some sym =>
      if visibility = "public" then
        if sym.Visibility ≠ "public" then none else some sym
      else if visibility = "private" then
        if sym.Visibility ≠ "private" then none else some sym
      else some sym)

/-- The reference-kind switch of `findReferences` (codesitter.go
lines 790–801). -/
def referenceKind (captureName : String) : String :=
  if captureName = "call" then "call"
  else if captureName = "type_ref" ∨ captureName = "composite_type" then "type_ref"
  else if captureName = "field" then "field_access"
  else if captureName = "ident" ∨ captureName = "short_var" then "identifier"
  else "reference"

/-- The context lookup of `findReferences` (codesitter.go lines
803–809): `lineIdx := capture.Range.Start.Line - 1` guarded by
`lineIdx >= 0 && lineIdx < len(lines)`; when the guard fails the
`Reference`'s `Context` keeps its zero value `""`. -/
def referenceContext (lines : List String) (startLine : Int) : String :=
  let lineIdx := startLine - 1
  if 0 ≤ lineIdx ∧ lineIdx < (lines.length : Int) then
    trimSpace (lines.getD lineIdx.toNat "")
  else ""

/-- `findReferences` (codesitter.go lines 767–816). -/
def findReferences (ms : List QueryMatch) (source : String)
    (symbolName : String) (includeContext : Bool) : List Reference :=
  let lines := source.splitOn "\n"
  ms.flatMap (fun m =>
    m.Captures.filterMap (fun capture =>
      if capture.Text ≠ symbolName then none
      else
        some { Symbol := symbolName,
               Kind := referenceKind capture.Name,
               File := m.File,
               Position := { Line := capture.Range.Start.Line,
                             Column := capture.Range.Start.Column },
               Context := if includeContext then
                   referenceContext lines capture.Range.Start.Line
                 else "" }))

/-- The external collaborators `codesitter.go` consumes, abstracted at
exactly the interface it uses: the language registry (`Get`,
language.go), query compilation (`newQuery`, parser.go), the per-query
texts embedded in a `Language` (`SymbolsQuery`, `OutlineQuery`,
`RefsQuery`), the scanner (`collectSingle`, `collect`, scanner.go), file
read+parse (`parseFile`, parser.go) and query execution (`run`,
parser.go).  `L`, `K`, `T` are the abstract types of a registered
language, a compiled query, and a parsed syntax tree;
`runtime.NumCPU()` is the field `numCPU`. -/
structure Env (L K T : Type) where
  numCPU : Int
  Get : String → Option L
  newQuery : String → L → Except String K
  SymbolsQuery : L → String
  OutlineQuery : L → String
  RefsQuery : L → String
  collectSingle : String → Except String FileJob
  collect : String → L → Int → Except String (List FileJob)
  parseFile : L → String → Except String (T × String)
  run : K → T → String → String → List QueryMatch

/-- The worker-count clamp shared verbatim by `runQueryWorkers`
(codesitter.go lines 240–246), `runSymbolsWorkers` (lines 302–308) and
`runRefsWorkers` (lines 367–373):
`workerCount := jobs; if workerCount < 1 { workerCount = 1 };
if workerCount > len(files) { workerCount = len(files) }`. -/
def effectiveWorkerCount (jobs : Int) (files : List FileJob) : Int :=
  let workerCount := jobs
  let workerCount := if workerCount < 1 then 1 else workerCount
  if workerCount > (files.length : Int) then (files.length : Int) else workerCount

set_option linter.unusedVariables false in
/-- `runQueryWorkers` (codesitter.go lines 235–286): each worker parses
a job's file (skipping it on error) and runs the query; all per-match
results are collected on one channel.  Modelled by the sequential
denotation of the pool; `jobs` only determines `effectiveWorkerCount`
and does not affect the collected result set. -/
def runQueryWorkers {L K T : Type} (env : Env L K T) (language : L)
    (query : K) (files : List FileJob) (jobs : Int) : List QueryMatch :=
  files.flatMap (fun job =>
    match env.parseFile language job.AbsPath with
    | .error _ => []
    | .ok (tree, source) => env.run query tree source job.DisplayPath)

set_option linter.unusedVariables false in
/-- `runSymbolsWorkers` (codesitter.go lines 289–352): as
`runQueryWorkers`, projecting each file's matches through
`extractSymbols` and emitting a `SymbolsResult` only when the file
yields at least one symbol. -/
def runSymbolsWorkers {L K T : Type} (env : Env L K T) (language : L)
    (query : K) (files : List FileJob) (jobs : Int) (visibility : String)
    (includeSource : Bool) (maxSourceLines : Int) : List SymbolsResult :=
  files.filterMap (fun job =>
    match env.parseFile language job.AbsPath with
    | .error _ => none
    | .ok (tree, source) =>
      let ms := env.run query tree source job.DisplayPath
      let symbols := extractSymbols ms source visibility includeSource maxSourceLines
      if symbols.length > 0 then
        some { File := job.DisplayPath, Symbols := symbols }
      else none)

set_option linter.unusedVariables false in
/-- `runRefsWorkers` (codesitter.go lines 355–414): as
`runQueryWorkers`, projecting each file's matches through
`findReferences`. -/
def runRefsWorkers {L K T : Type} (env : Env L K T) (language : L)
    (query : K) (files : List FileJob) (jobs : Int) (symbolName : String)
    (includeContext : Bool) : List Reference :=
  files.flatMap (fun job =>
    match env.parseFile language job.AbsPath with
    | .error _ => []
    | .ok (tree, source) =>
      findReferences (env.run query tree source job.DisplayPath) source
        symbolName includeContext)

/-- Go `strings.Trim(s, "\x22")`: remove all leading and trailing
double-quote characters (used on import paths in `buildOutline`). -/
def trimQuoteChars (s : String) : String :=
  let dropped := s.data.dropWhile (fun c => c = '"')
  String.mk ((dropped.reverse.dropWhile (fun c => c = '"')).reverse)

/-- The `typeCat` loop of `buildOutline` (codesitter.go lines 707–724):
the categories probed in order, first hit wins (`break`). -/
def typeCategories : List String :=
  ["type_alias", "type_ptr", "type_slice", "type_map", "type_func"]

/-- One iteration of the match loop of `buildOutline` (codesitter.go
lines 607–761); each section's trailing `continue` is modelled by the
nested match structure, and the `typeCat` loop (which only `break`s,
never `continue`s) falls through to the const/var sections. -/
def buildOutlineStep (file : String) (includeSource : Bool)
    (maxSourceLines : Int) (outline : FileOutline) (m : QueryMatch) :
    FileOutline :=
  match capturesGet m.Captures "package" with
  | some pkg => { outline with Package := pkg.Text }
  | none =>
  match capturesGet m.Captures "path" with
  | some path =>
    let imp : ImportInfo :=
      { Path := trimQuoteChars path.Text,
        Alias := match capturesGet m.Captures "alias" with
          | some al => al.Text
          | none => "" }
    { outline with Imports := outline.Imports ++ [imp] }
  | none =>
  match capturesGet m.Captures "function" with
  | some fn =>
    match capturesGet m.Captures "func_name" with
    | some name =>
      let sym := { zeroSymbol with
        Kind := "function", Name := name.Text,
        File := file, Range := fn.Range,
        Visibility := getVisibility name.Text,
        Source := if includeSource then truncateSource fn.Text maxSourceLines else "" }
      { outline with Symbols := outline.Symbols ++ [sym] }
    | none => outline
  | none =>
  match capturesGet m.Captures "method" with
  | some meth =>
    match capturesGet m.Captures "method_name" with
    | some name =>
      let sym := { zeroSymbol with
        Kind := "method", Name := name.Text,
        File := file, Range := meth.Range,
        Visibility := getVisibility name.Text,
        Receiver := match capturesGet m.Captures "receiver_type" with
          | some recv => if recv.Text.startsWith "*" then recv.Text.drop 1 else recv.Text
          | none => "",
        Source := if includeSource then truncateSource meth.Text maxSourceLines else "" }
      { outline with Symbols := outline.Symbols ++ [sym] }
    | none => outline
  | none =>
  match capturesGet m.Captures "struct" with
  | some st =>
    match capturesGet m.Captures "type_name" with
    | some name =>
      let sym := { zeroSymbol with
        Kind := "struct", Name := name.Text,
        File := file, Range := st.Range,
        Visibility := getVisibility name.Text,
        Source := if includeSource then truncateSource st.Text maxSourceLines else "" }
      { outline with Symbols := outline.Symbols ++ [sym] }
    | none => outline
  | none =>
  match capturesGet m.Captures "interface" with
  | some iface =>
    match capturesGet m.Captures "type_name" with
    | some name =>
      let sym := { zeroSymbol with
        Kind := "interface", Name := name.Text,
        File := file, Range := iface.Range,
        Visibility := getVisibility name.Text,
        Source := if includeSource then truncateSource iface.Text maxSourceLines else "" }
      { outline with Symbols := outline.Symbols ++ [sym] }
    | none => outline
  | none =>
    let afterTypes :=
      match typeCategories.findSome? (fun cat => capturesGet m.Captures cat) with
      | some typeDecl =>
        match capturesGet m.Captures "type_name" with
        | some name =>
          let sym := { zeroSymbol with
            Kind := "type", Name := name.Text,
            File := file, Range := typeDecl.Range,
            Visibility := getVisibility name.Text,
            Source := if includeSource then truncateSource typeDecl.Text maxSourceLines else "" }
          { outline with Symbols := outline.Symbols ++ [sym] }
        | none => outline
      | none => outline
    match capturesGet m.Captures "const" with
    | some cdecl =>
      match capturesGet m.Captures "const_name" with
      | some name =>
        let sym := { zeroSymbol with
          Kind := "const", Name := name.Text,
          File := file, Range := cdecl.Range,
          Visibility := getVisibility name.Text,
          Source := if includeSource then truncateSource cdecl.Text maxSourceLines else "" }
        { afterTypes with Symbols := afterTypes.Symbols ++ [sym] }
      | none => afterTypes
    | none =>
    match capturesGet m.Captures "var" with
    | some vdecl =>
      match capturesGet m.Captures "var_name" with
      | some name =>
        let sym := { zeroSymbol with
          Kind := "var", Name := name.Text,
          File := file, Range := vdecl.Range,
          Visibility := getVisibility name.Text,
          Source := if includeSource then truncateSource vdecl.Text maxSourceLines else "" }
        { afterTypes with Symbols := afterTypes.Symbols ++ [sym] }
      | none => afterTypes
    | none => afterTypes

/-- `buildOutline` (codesitter.go lines 598–764).  The unused `source`
parameter (`_ []byte` in Go) is omitted. -/
def buildOutline (file : String) (ms : List QueryMatch)
    (includeSource : Bool) (maxSourceLines : Int) : FileOutline :=
  ms.foldl (buildOutlineStep file includeSource maxSourceLines)
    { File := file, Package := "", Imports := [], Symbols := [] }

/-- `Outline` (codesitter.go lines 131–167). -/
def Outline {L K T : Type} (env : Env L K T) (opts : OutlineOptions) :
    Except String FileOutline :=
  if opts.File = "" then .error "file is required" else
  let opts := { opts with Language := if opts.Language = "" then "go" else opts.Language }
  let opts := { opts with MaxSourceLines := if opts.MaxSourceLines = 0 then 5 else opts.MaxSourceLines }
  match env.Get opts.Language with
  | none => .error (opts.Language ++ " language not registered")
  | some language =>
    match env.newQuery (env.OutlineQuery language) language with
    | .error e => .error e
    | .ok query =>
      match env.collectSingle opts.File with
      | .error e => .error e
      | .ok job =>
        match env.parseFile language job.AbsPath with
        | .error e => .error e
        | .ok (tree, source) =>
          let ms := env.run query tree source job.DisplayPath
          .ok (buildOutline job.DisplayPath ms opts.IncludeSource opts.MaxSourceLines)

/-- `Query` (codesitter.go lines 12–64). -/
def Query {L K T : Type} (env : Env L K T) (opts : QueryOptions) :
    Except String (List QueryMatch) :=
  if opts.Query = "" then .error "query is required" else
  let opts := { opts with Language := if opts.Language = "" then "go" else opts.Language }
  let opts := { opts with Path := if opts.Path = "" then "." else opts.Path }
  let opts := { opts with Jobs := if opts.Jobs = 0 then env.numCPU else opts.Jobs }
  let opts := { opts with MaxBytes := if opts.MaxBytes = 0 then 2 * 1024 * 1024 else opts.MaxBytes }
  match env.Get opts.Language with
  | none => .error (opts.Language ++ " language not registered")
  | some language =>
    match env.newQuery opts.Query language with
    | .error e => .error e
    | .ok query =>
      let filesE : Except String (List FileJob) :=
        if opts.File ≠ "" then
          match env.collectSingle opts.File with
          | .error e => .error e
          | .ok job => .ok [job]
        else env.collect opts.Path language opts.MaxBytes
      match filesE with
      | .error e => .error e
      | .ok files =>
        if files.length = 0 then .ok []
        else .ok (runQueryWorkers env language query files opts.Jobs)

/-- `Symbols` (codesitter.go lines 73–128). -/
def Symbols {L K T : Type} (env : Env L K T) (opts : SymbolsOptions) :
    Except String (List SymbolsResult) :=
  let opts := { opts with Language := if opts.Language = "" then "go" else opts.Language }
  let opts := { opts with Path := if opts.Path = "" then "." else opts.Path }
  let opts := { opts with Visibility := if opts.Visibility = "" then "all" else opts.Visibility }
  let opts := { opts with MaxSourceLines := if opts.MaxSourceLines = 0 then 10 else opts.MaxSourceLines }
  let opts := { opts with Jobs := if opts.Jobs = 0 then env.numCPU else opts.Jobs }
  let opts := { opts with MaxBytes := if opts.MaxBytes = 0 then 2 * 1024 * 1024 else opts.MaxBytes }
  match env.Get opts.Language with
  | none => .error (opts.Language ++ " language not registered")
  | some language =>
    match env.newQuery (env.SymbolsQuery language) language with
    | .error e => .error e
    | .ok query =>
      let filesE : Except String (List FileJob) :=
        if opts.File ≠ "" then
          match env.collectSingle opts.File with
          | .error e => .error e
          | .ok job => .ok [job]
        else env.collect opts.Path language opts.MaxBytes
      match filesE with
      | .error e => .error e
      | .ok files =>
        if files.length = 0 then .ok []
        else .ok (runSymbolsWorkers env language query files opts.Jobs
          opts.Visibility opts.IncludeSource opts.MaxSourceLines)

/-- `Refs` (codesitter.go lines 176–232). -/
def Refs {L K T : Type} (env : Env L K T) (opts : RefsOptions) :
    Except String RefsResult :=
  if opts.Symbol = "" then .error "symbol is required" else
  let opts := { opts with Language := if opts.Language = "" then "go" else opts.Language }
  let opts := { opts with Path := if opts.Path = "" then "." else opts.Path }
  let opts := { opts with Jobs := if opts.Jobs = 0 then env.numCPU else opts.Jobs }
  let opts := { opts with MaxBytes := if opts.MaxBytes = 0 then 2 * 1024 * 1024 else opts.MaxBytes }
  match env.Get opts.Language with
  | none => .error (opts.Language ++ " language not registered")
  | some language =>
    match env.newQuery (env.RefsQuery language) language with
    | .error e => .error e
    | .ok query =>
      let filesE : Except String (List FileJob) :=
        if opts.File ≠ "" then
          match env.collectSingle opts.File with
          | .error e => .error e
          | .ok job => .ok [job]
        else env.collect opts.Path language opts.MaxBytes
      match filesE with
      | .error e => .error e
      | .ok files =>
        if files.length = 0 then .ok { Symbol := opts.Symbol, References := [] }
        else .ok { Symbol := opts.Symbol,
                   References := runRefsWorkers env language query files
                     opts.Jobs opts.Symbol opts.IncludeContext }

/-! ## Helper definitions and lemmas for the theorems -/

/-- The text of the `name` capture of a match (`""` when the capture is
absent — which in particular covers a match with an empty capture set). -/
def nameTextOf (m : QueryMatch) : String :=
  match capturesGet m.Captures "name" with
  | some c => c.Text
  | none => ""

/-- Modelled from the spec (§4.2): "capture name `call` → kind `call`;
`type_ref` or `composite_type` → `type_ref`; `field` → `field_access`;
`ident` or `short_var` → `identifier`; anything else matched by the refs
pattern → `reference` (catch-all, never rejected)". -/
def referenceKindSpec (captureName : String) : String :=
  if captureName = "call" then "call"
  else if captureName = "type_ref" ∨ captureName = "composite_type" then "type_ref"
  else if captureName = "field" then "field_access"
  else if captureName = "ident" ∨ captureName = "short_var" then "identifier"
  else "reference"

/-- Join a list of words with single spaces (to state the spec's
"separated by single spaces" signature format). -/
def joinSpace : List String → String
  | [] => ""
  | [x] => x
  | x :: xs => x ++ " " ++ joinSpace xs

/-- The singleton text of an optional capture (empty when absent). -/
def optText (o : Option CaptureResult) : List String :=
  match o with
  | some c => [c.Text]
  | none => []

/-- Modelled from the spec, claim C7 exactly as stated: the literal
function keyword, the optional receiver, the name, the parameter-list
text and the optional result type, ALL "separated by single spaces,
with any absent part omitted entirely". -/
def buildFuncSignatureClaimed (captures : List CaptureResult) : String :=
  joinSpace (["func"]
    ++ optText (capturesGet captures "receiver")
    ++ optText (capturesGet captures "name")
    ++ optText (capturesGet captures "params")
    ++ optText (capturesGet captures "result"))

/-- Claim C7 as amended: keyword, optional receiver and optional name
are separated by single spaces, the parameter-list capture text is then
appended DIRECTLY (no separating space), and the optional result type
follows after a single space. -/
def buildFuncSignatureAmended (captures : List CaptureResult) : String :=
  joinSpace (["func"]
    ++ optText (capturesGet captures "receiver")
    ++ optText (capturesGet captures "name"))
  ++ (match capturesGet captures "params" with
      | some params => params.Text
      | none => "")
  ++ (match capturesGet captures "result" with
      | some result => " " ++ result.Text
      | none => "")

/-- A capture with the given name and text (zero range), for the
concrete witnesses. -/
def mkCapture (name text : String) : CaptureResult :=
  { Name := name, NodeType := "", Text := text, Range := zeroRange }

/-- A synthetic match carrying both a `const` and a `type` capture plus
a name — the regression scenario of spec §8 ("scenario B"). -/
def constTypeMatch : QueryMatch :=
  { File := "f.go", Pattern := 0,
    Captures := [mkCapture "const" "const x int = 1", mkCapture "type" "int",
                 mkCapture "name" "x"] }

/-- The kind refinement of the `type` branch of `parseSymbolFromMatch`
(codesitter.go lines 489–499): the node kind of the auxiliary
`type_def` capture, with prefix `struct` → `struct`, prefix `interface`
→ `interface`, anything else (or no `type_def` capture) → `type`. -/
def typeKindOf (m : QueryMatch) : String :=
  match capturesGet m.Captures "type_def" with
  | some typeSpec =>
    if typeSpec.NodeType.startsWith "struct" then "struct"
    else if typeSpec.NodeType.startsWith "interface" then "interface"
    else "type"
  | none => "type"

/-- A match whose capture set lacks a `name` capture. -/
def noNameMatch : QueryMatch :=
  { File := "f.go", Pattern := 0, Captures := [mkCapture "const" "const 1"] }

/-- A synthetic match carrying `function`, `method` AND `type` captures
plus a name, to exercise the function-before-method-before-type
precedence links concretely. -/
def funcMethodTypeMatch : QueryMatch :=
  { File := "f.go", Pattern := 0,
    Captures := [mkCapture "function" "func M()", mkCapture "method" "func M()",
                 mkCapture "type" "M", mkCapture "name" "M"] }

/-- The capture set of a parameterised function named `Hello`, for the
signature counterexample. -/
def sigCaptures : List CaptureResult :=
  [mkCapture "name" "Hello", mkCapture "params" "(x int)"]

/-- A trivial environment over `Unit` collaborator types: one registered
language, every query compiles, directory scans find no files, and
every file read fails. -/
def unitEnv : Env Unit Unit Unit :=
  { numCPU := 4
    Get := fun _ => some ()
    newQuery := fun _ _ => .ok ()
    SymbolsQuery := fun _ => "symbols-query"
    OutlineQuery := fun _ => "outline-query"
    RefsQuery := fun _ => "refs-query"
    collectSingle := fun p => .ok { AbsPath := p, DisplayPath := p }
    collect := fun _ _ _ => .ok []
    parseFile := fun _ _ => .error "read file: open"
    run := fun _ _ _ _ => [] }

/-- As `unitEnv` but with an empty language registry. -/
def emptyRegistryEnv : Env Unit Unit Unit :=
  { unitEnv with Get := fun _ => none }

/-- A match with a `call` capture whose text is `Foo` (spec §8
scenario C), for the reference-classification witness. -/
def fooCallMatch : QueryMatch :=
  { File := "f.go", Pattern := 0,
    Captures := [{ Name := "call", NodeType := "call_expression",
                   Text := "Foo", Range := ⟨⟨2, 3⟩, ⟨2, 6⟩⟩ },
                 mkCapture "ident" "Bar"] }

/-- The reference that `fooCallMatch` is expected to produce. -/
def fooCallRef : Reference :=
  { Symbol := "Foo", Kind := "call", File := "f.go",
    Position := ⟨2, 3⟩, Context := "" }

/-- Concrete file jobs for the worker-pool witnesses. -/
def jobA : FileJob := { AbsPath := "/a.go", DisplayPath := "a.go" }

/-- See `jobA`. -/
def jobB : FileJob := { AbsPath := "/b.go", DisplayPath := "b.go" }

theorem classifySymbol_name (m : QueryMatch) :
    ∀ s, classifySymbol m = some s → s.Name = nameTextOf m := by
  intro s h
  unfold classifySymbol at h
  unfold nameTextOf
  repeat' split at h
  all_goals simp at h
  all_goals subst h
  all_goals simp_all [zeroSymbol]

theorem classifySymbol_const (m : QueryMatch)
    (h : (capturesGet m.Captures "const").isSome = true) :
    ∃ s, classifySymbol m = some s ∧ s.Kind = "const" := by
  rw [Option.isSome_iff_exists] at h
  obtain ⟨c, hc⟩ := h
  unfold classifySymbol
  rcases hn : capturesGet m.Captures "name" with _ | n <;>
    simp [hc, hn, zeroSymbol]

theorem classifySymbol_var (m : QueryMatch)
    (h0 : capturesGet m.Captures "const" = none)
    (h : (capturesGet m.Captures "var").isSome = true) :
    ∃ s, classifySymbol m = some s ∧ s.Kind = "var" := by
  rw [Option.isSome_iff_exists] at h
  obtain ⟨c, hc⟩ := h
  unfold classifySymbol
  rcases hn : capturesGet m.Captures "name" with _ | n <;>
    simp [h0, hc, hn, zeroSymbol]

theorem classifySymbol_function (m : QueryMatch)
    (h1 : capturesGet m.Captures "const" = none)
    (h2 : capturesGet m.Captures "var" = none)
    (h : (capturesGet m.Captures "function").isSome = true) :
    ∃ s, classifySymbol m = some s ∧ s.Kind = "function" := by
  rw [Option.isSome_iff_exists] at h
  obtain ⟨c, hc⟩ := h
  unfold classifySymbol
  rcases hn : capturesGet m.Captures "name" with _ | n <;>
    simp [h1, h2, hc, hn, zeroSymbol]

theorem classifySymbol_method (m : QueryMatch)
    (h1 : capturesGet m.Captures "const" = none)
    (h2 : capturesGet m.Captures "var" = none)
    (h3 : capturesGet m.Captures "function" = none)
    (h : (capturesGet m.Captures "method").isSome = true) :
    ∃ s, classifySymbol m = some s ∧ s.Kind = "method" := by
  rw [Option.isSome_iff_exists] at h
  obtain ⟨c, hc⟩ := h
  unfold classifySymbol
  rcases hn : capturesGet m.Captures "name" with _ | n <;>
  rcases hr : capturesGet m.Captures "receiver" with _ | r <;>
    simp [h1, h2, h3, hc, hn, hr, zeroSymbol]

theorem classifySymbol_type (m : QueryMatch)
    (h1 : capturesGet m.Captures "const" = none)
    (h2 : capturesGet m.Captures "var" = none)
    (h3 : capturesGet m.Captures "function" = none)
    (h4 : capturesGet m.Captures "method" = none)
    (h : (capturesGet m.Captures "type").isSome = true) :
    ∃ s, classifySymbol m = some s ∧ s.Kind = typeKindOf m := by
  rw [Option.isSome_iff_exists] at h
  obtain ⟨c, hc⟩ := h
  unfold classifySymbol typeKindOf
  rcases hn : capturesGet m.Captures "name" with _ | n <;>
  rcases ht : capturesGet m.Captures "type_def" with _ | ts <;>
    simp [h1, h2, h3, h4, hc, hn, ht, zeroSymbol]

theorem classifySymbol_none (m : QueryMatch)
    (h1 : capturesGet m.Captures "const" = none)
    (h2 : capturesGet m.Captures "var" = none)
    (h3 : capturesGet m.Captures "function" = none)
    (h4 : capturesGet m.Captures "method" = none)
    (h5 : capturesGet m.Captures "type" = none) :
    classifySymbol m = none := by
  unfold classifySymbol
  simp [h1, h2, h3, h4, h5]

theorem parseSymbolFromMatch_map_kind (m : QueryMatch) (source : String)
    (includeSource : Bool) (maxSourceLines : Int) :
    (parseSymbolFromMatch m source includeSource maxSourceLines).map Symbol.Kind =
      match classifySymbol m with
      | none => none
      | some s => if s.Name = "" then none else some s.Kind := by
  unfold parseSymbolFromMatch
  rcases hc : classifySymbol m with _ | s
  · rfl
  · by_cases hn : s.Name = ""
    · simp [hn]
    · rcases hf : m.Captures.find? (fun c =>
          c.Name == "function" || c.Name == "method" || c.Name == "type" ||
          c.Name == "const" || c.Name == "var") with _ | c <;>
        cases includeSource <;> simp [hn, hf]

theorem parseSymbolFromMatch_some_name (m : QueryMatch) (source : String)
    (includeSource : Bool) (maxSourceLines : Int) :
    ∀ s, parseSymbolFromMatch m source includeSource maxSourceLines = some s →
      s.Name = nameTextOf m ∧ s.Name ≠ "" := by
  intro s h
  unfold parseSymbolFromMatch at h
  rcases hc : classifySymbol m with _ | s0
  · simp [hc] at h
  · have hname := classifySymbol_name m s0 hc
    rw [← hname]
    by_cases hn : s0.Name = ""
    · simp [hc, hn] at h
    · rcases hf : m.Captures.find? (fun c =>
          c.Name == "function" || c.Name == "method" || c.Name == "type" ||
          c.Name == "const" || c.Name == "var") with _ | c <;>
        cases includeSource <;>
        · simp [hc, hn, hf] at h
          subst h
          exact ⟨rfl, hn⟩

theorem parseSymbolFromMatch_noname (m : QueryMatch) (source : String)
    (includeSource : Bool) (maxSourceLines : Int)
    (h : nameTextOf m = "") :
    parseSymbolFromMatch m source includeSource maxSourceLines = none := by
  unfold parseSymbolFromMatch
  rcases hc : classifySymbol m with _ | s0
  · rfl
  · have hname := classifySymbol_name m s0 hc
    simp [hname, h]

/-! ## Claim theorems -/

/-- C1: classification of a match follows the full fixed precedence
const → var → function → method → type: a `const` match classifies as
`const` whatever else it carries (in particular a const+type match is
`const`, never `type`); without `const`, a `var` match is `var`
(likewise var+type is `var`); without both, a `function` match is
`function` (even if `method` or `type` captures are also present);
without the first three, a `method` match is `method` (even alongside
`type`); only then does a `type` capture classify, into its refined
struct/interface/type kind; and a match containing none of the five
capture names yields no Symbol.  Each positive branch yields a Symbol
exactly when its `name` capture text is non-empty. -/
theorem parseSymbolFromMatch_precedence (m : QueryMatch) (source : String)
    (includeSource : Bool) (maxSourceLines : Int) :
    ((capturesGet m.Captures "const").isSome = true →
      (parseSymbolFromMatch m source includeSource maxSourceLines).map Symbol.Kind =
        if nameTextOf m = "" then none else some "const")
  ∧ (capturesGet m.Captures "const" = none →
      (capturesGet m.Captures "var").isSome = true →
      (parseSymbolFromMatch m source includeSource maxSourceLines).map Symbol.Kind =
        if nameTextOf m = "" then none else some "var")
  ∧ (capturesGet m.Captures "const" = none →
      capturesGet m.Captures "var" = none →
      (capturesGet m.Captures "function").isSome = true →
      (parseSymbolFromMatch m source includeSource maxSourceLines).map Symbol.Kind =
        if nameTextOf m = "" then none else some "function")
  ∧ (capturesGet m.Captures "const" = none →
      capturesGet m.Captures "var" = none →
      capturesGet m.Captures "function" = none →
      (capturesGet m.Captures "method").isSome = true →
      (parseSymbolFromMatch m source includeSource maxSourceLines).map Symbol.Kind =
        if nameTextOf m = "" then none else some "method")
  ∧ (capturesGet m.Captures "const" = none →
      capturesGet m.Captures "var" = none →
      capturesGet m.Captures "function" = none →
      capturesGet m.Captures "method" = none →
      (capturesGet m.Captures "type").isSome = true →
      (parseSymbolFromMatch m source includeSource maxSourceLines).map Symbol.Kind =
        if nameTextOf m = "" then none else some (typeKindOf m))
  ∧ (capturesGet m.Captures "const" = none →
      capturesGet m.Captures "var" = none →
      capturesGet m.Captures "function" = none →
      capturesGet m.Captures "method" = none →
      capturesGet m.Captures "type" = none →
      parseSymbolFromMatch m source includeSource maxSourceLines = none) := by
  refine ⟨?_, ?_, ?_, ?_, ?_, ?_⟩
  · intro h
    obtain ⟨s, hs, hk⟩ := classifySymbol_const m h
    have hname := classifySymbol_name m s hs
    rw [parseSymbolFromMatch_map_kind]
    simp [hs, hk, ← hname]
  · intro h1 h
    obtain ⟨s, hs, hk⟩ := classifySymbol_var m h1 h
    have hname := classifySymbol_name m s hs
    rw [parseSymbolFromMatch_map_kind]
    simp [hs, hk, ← hname]
  · intro h1 h2 h
    obtain ⟨s, hs, hk⟩ := classifySymbol_function m h1 h2 h
    have hname := classifySymbol_name m s hs
    rw [parseSymbolFromMatch_map_kind]
    simp [hs, hk, ← hname]
  · intro h1 h2 h3 h
    obtain ⟨s, hs, hk⟩ := classifySymbol_method m h1 h2 h3 h
    have hname := classifySymbol_name m s hs
    rw [parseSymbolFromMatch_map_kind]
    simp [hs, hk, ← hname]
  · intro h1 h2 h3 h4 h
    obtain ⟨s, hs, hk⟩ := classifySymbol_type m h1 h2 h3 h4 h
    have hname := classifySymbol_name m s hs
    rw [parseSymbolFromMatch_map_kind]
    simp [hs, hk, ← hname]
  · intro h1 h2 h3 h4 h5
    unfold parseSymbolFromMatch
    simp [classifySymbol_none m h1 h2 h3 h4 h5]

/-- Witness for C1: a concrete synthetic match carrying both a `const`
and a `type` capture (and a name) classifies as `const`, never `type`;
and a concrete match carrying `function`, `method` and `type` captures
classifies as `function`. -/
theorem parseSymbolFromMatch_precedence_witness :
    (capturesGet constTypeMatch.Captures "const").isSome = true ∧
    (capturesGet constTypeMatch.Captures "type").isSome = true ∧
    (parseSymbolFromMatch constTypeMatch "" false 0).map Symbol.Kind = some "const" ∧
    (capturesGet funcMethodTypeMatch.Captures "function").isSome = true ∧
    (capturesGet funcMethodTypeMatch.Captures "method").isSome = true ∧
    (capturesGet funcMethodTypeMatch.Captures "type").isSome = true ∧
    (parseSymbolFromMatch funcMethodTypeMatch "" false 0).map Symbol.Kind = some "function" := by
  refine ⟨by decide, by decide, ?_, by decide, by decide, by decide, ?_⟩
  · have h := (parseSymbolFromMatch_precedence constTypeMatch "" false 0).1 (by decide)
    rw [h]
    decide
  · have h := (parseSymbolFromMatch_precedence funcMethodTypeMatch "" false 0).2.2.1
      (by decide) (by decide) (by decide)
    rw [h]
    decide

/-- C8: every Symbol returned by `extractSymbols` has a non-empty name,
for every visibility filter and every `includeSource` setting; and any
match whose `name` capture text resolves to `""` — a match with an empty
capture set, a match lacking a `name` capture, or a match whose `name`
capture text is empty — produces no Symbol. -/
theorem extractSymbols_nonempty_name (ms : List QueryMatch)
    (source visibility : String) (includeSource : Bool) (maxSourceLines : Int) :
    (∀ s ∈ extractSymbols ms source visibility includeSource maxSourceLines,
      s.Name ≠ "")
  ∧ (∀ m : QueryMatch, nameTextOf m = "" →
      parseSymbolFromMatch m source includeSource maxSourceLines = none) := by
  constructor
  · intro s hs
    rcases List.mem_filterMap.mp hs with ⟨m, hm, hf⟩
    split at hf
    · simp at hf
    · rename_i sym heq
      have h2 := (parseSymbolFromMatch_some_name m source includeSource
        maxSourceLines sym heq).2
      split_ifs at hf <;> simp_all
  · intro m h
    exact parseSymbolFromMatch_noname m source includeSource maxSourceLines h

/-- Witness for C8: a concrete match lacking a `name` capture yields no
Symbol, and a concrete empty-capture match yields no Symbol. -/
theorem extractSymbols_nonempty_name_witness :
    nameTextOf noNameMatch = "" ∧
    parseSymbolFromMatch noNameMatch "" false 0 = none ∧
    parseSymbolFromMatch { File := "f.go", Pattern := 0, Captures := [] } "" true 10 = none := by
  refine ⟨by decide, ?_, ?_⟩
  · exact (extractSymbols_nonempty_name [] "" "all" false 0).2 noNameMatch (by decide)
  · exact (extractSymbols_nonempty_name [] "" "all" true 10).2
      { File := "f.go", Pattern := 0, Captures := [] } (by decide)

/-- C4 (refuted — code bug): at the name `"ωx"` the code's
`getVisibility` answers `"public"`, although the first character `ω`
(GREEK SMALL LETTER OMEGA, U+03C9) is not an upper-case letter: Go's
`rune(name[0])` decodes only the leading UTF-8 byte `0xCF`, which read
as a rune is `Ï` (U+00CF), an upper-case letter.  The spec's first-rune
rule (`getVisibilityFirstRune`) answers `"private"` there. -/
theorem getVisibility_first_byte_divergence :
    getVisibility "ωx" = "public" ∧
    unicodeIsUpper ('ω'.toNat) = false ∧
    getVisibilityFirstRune "ωx" = "private" := by decide

/-- C7 (counterexample): with a `name` capture `Hello` and a `params`
capture `(x int)`, the code builds `"func Hello(x int)"` — the
parameter list is appended with NO separating space — while the claim's
all-parts-space-separated format would give `"func Hello (x int)"`. -/
theorem buildFuncSignature_space_counterexample :
    buildFuncSignature sigCaptures = "func Hello(x int)" ∧
    buildFuncSignatureClaimed sigCaptures = "func Hello (x int)" ∧
    buildFuncSignature sigCaptures ≠ buildFuncSignatureClaimed sigCaptures := by
  decide

/-- C7 (amended): the signature concatenates, in fixed order, the
literal keyword `func`, the receiver capture text if present and the
name capture text if present separated by single spaces, then the
parameter-list capture text appended directly without a space, then the
result-type capture text if present preceded by a single space; absent
parts are omitted entirely. -/
theorem buildFuncSignature_amended_format (captures : List CaptureResult) :
    buildFuncSignature captures = buildFuncSignatureAmended captures := by
  have hfs : "func" ++ " " = "func " := rfl
  unfold buildFuncSignature buildFuncSignatureAmended
  rcases hr : capturesGet captures "receiver" with _ | r <;>
  rcases hn : capturesGet captures "name" with _ | n <;>
  rcases hp : capturesGet captures "params" with _ | p <;>
  rcases hq : capturesGet captures "result" with _ | q <;>
    simp [hr, hn, hp, hq, optText, joinSpace, ← String.append_assoc, hfs]

theorem capture_filterMap (S : String) (f : CaptureResult → Reference)
    (l : List CaptureResult) :
    l.filterMap (fun c => if c.Text ≠ S then none else some (f c)) =
      (l.filter (fun c => c.Text == S)).map f := by
  simp only [ne_eq, ite_not]
  induction l with
  | nil => rfl
  | cons a l ih =>
    rw [List.filterMap_cons]
    by_cases h : a.Text = S
    · simp [List.filter_cons, h, ih]
    · simp [List.filter_cons, h, ih]

/-- `findReferences` in closed form: one `Reference` per capture whose
text equals the search term, in order, with the fields as built by the
code. -/
theorem findReferences_eq (ms : List QueryMatch) (source symbolName : String)
    (includeContext : Bool) :
    findReferences ms source symbolName includeContext =
      ms.flatMap (fun m =>
        (m.Captures.filter (fun c => c.Text == symbolName)).map (fun c =>
          { Symbol := symbolName,
            Kind := referenceKind c.Name,
            File := m.File,
            Position := { Line := c.Range.Start.Line,
                          Column := c.Range.Start.Column },
            Context := if includeContext then
                referenceContext (source.splitOn "\n") c.Range.Start.Line
              else "" })) := by
  unfold findReferences
  exact congrArg (List.flatMap ms) (funext fun m => capture_filterMap _ _ _)

/-- C5: every capture of every match produces a `Reference` exactly when
its text equals the search term (one reference per matching capture);
every produced `Reference` has `Symbol` equal to the search term; and
the produced kinds are, capture for capture, exactly the spec's
classification table (`call` → call, `type_ref`/`composite_type` →
type_ref, `field` → field_access, `ident`/`short_var` → identifier,
anything else → reference — no matching capture is ever rejected). -/
theorem findReferences_classification (ms : List QueryMatch)
    (source symbolName : String) (includeContext : Bool) :
    ((findReferences ms source symbolName includeContext).length =
      (ms.flatMap (fun m => m.Captures.filter (fun c => c.Text == symbolName))).length)
  ∧ (∀ r ∈ findReferences ms source symbolName includeContext,
      r.Symbol = symbolName)
  ∧ ((findReferences ms source symbolName includeContext).map Reference.Kind =
      (ms.flatMap (fun m => m.Captures.filter (fun c => c.Text == symbolName))).map
        (fun c => referenceKindSpec c.Name)) := by
  refine ⟨?_, ?_, ?_⟩
  · rw [findReferences_eq]
    simp [List.length_flatMap, Function.comp_def]
  · rw [findReferences_eq]
    intro r hr
    rcases List.mem_flatMap.mp hr with ⟨m, hm, hc⟩
    rcases List.mem_map.mp hc with ⟨c, hcf, rfl⟩
    rfl
  · rw [findReferences_eq, List.map_flatMap, List.map_flatMap]
    exact congrArg (List.flatMap ms) (funext fun m => by
      rw [List.map_map]
      rfl)

/-- Witness for C5: the concrete call-capture match produces exactly the
expected reference, whose `Symbol` is the search term. -/
theorem findReferences_classification_witness :
    fooCallRef ∈ findReferences [fooCallMatch] "x\n  Foo()" "Foo" false ∧
    fooCallRef.Symbol = "Foo" := by
  refine ⟨by decide, ?_⟩
  exact (findReferences_classification [fooCallMatch] "x\n  Foo()" "Foo" false).2.1
    fooCallRef (by decide)

/-- C10: with the include-context flag set, the context of each produced
`Reference` is bounds-guarded — writing `L` for the capture's 1-based
start line, if `L-1 < 0` or `L-1 ≥` the number of source lines the
`Reference` is still produced but its `Context` is empty (the line list
is only accessed through the bounds-safe `getD`), and for in-range `L-1`
the `Context` is the whitespace-trimmed text of that source line. -/
theorem findReferences_context_bounds (ms : List QueryMatch)
    (source symbolName : String) :
    (findReferences ms source symbolName true).map Reference.Context =
      (ms.flatMap (fun m => m.Captures.filter (fun c => c.Text == symbolName))).map
        (fun c =>
          if 0 ≤ c.Range.Start.Line - 1 ∧
              c.Range.Start.Line - 1 < (((source.splitOn "\n").length : Int)) then
            trimSpace ((source.splitOn "\n").getD (c.Range.Start.Line - 1).toNat "")
          else "") := by
  rw [findReferences_eq, List.map_flatMap, List.map_flatMap]
  exact congrArg (List.flatMap ms) (funext fun m => by
    rw [List.map_map]
    rfl)

/-- C3: a file whose read or parse fails (`parseFile` returns an error)
contributes zero results to `runQueryWorkers`, `runSymbolsWorkers` and
`runRefsWorkers`, the results for every other file are unaffected, and
the dispatch still returns (a plain result collection — there is no
error channel past this point, so the per-file error is never visible to
the caller). -/
theorem per_file_errors_skipped {L K T : Type} (env : Env L K T)
    (language : L) (query : K) (jobs : Int) (pre post : List FileJob)
    (bad : FileJob) (e : String) (visibility : String)
    (includeSource : Bool) (maxSourceLines : Int) (symbolName : String)
    (includeContext : Bool)
    (hbad : env.parseFile language bad.AbsPath = .error e) :
    runQueryWorkers env language query (pre ++ bad :: post) jobs =
      runQueryWorkers env language query (pre ++ post) jobs
  ∧ runSymbolsWorkers env language query (pre ++ bad :: post) jobs
      visibility includeSource maxSourceLines =
      runSymbolsWorkers env language query (pre ++ post) jobs
        visibility includeSource maxSourceLines
  ∧ runRefsWorkers env language query (pre ++ bad :: post) jobs
      symbolName includeContext =
      runRefsWorkers env language query (pre ++ post) jobs
        symbolName includeContext := by
  unfold runQueryWorkers runSymbolsWorkers runRefsWorkers
  refine ⟨?_, ?_, ?_⟩ <;>
    simp [List.flatMap_append, List.filterMap_append, hbad]

/-- Witness for C3: with every file unreadable in `unitEnv`, dropping
the failing file `jobB` from a concrete two-file batch leaves the
query results unchanged. -/
theorem per_file_errors_skipped_witness :
    unitEnv.parseFile () jobB.AbsPath = .error "read file: open" ∧
    runQueryWorkers unitEnv () () [jobA, jobB] 1 =
      runQueryWorkers unitEnv () () [jobA] 1 := by
  refine ⟨rfl, ?_⟩
  exact (per_file_errors_skipped unitEnv () () 1 [jobA] [] jobB
    "read file: open" "all" false 10 "Foo" false rfl).1

/-- C2: for any requested worker count (including zero and negative) and
a non-empty file set the clamp used by all three worker pools yields a
worker count in `[1, len(files)]`; and with an empty file set `Query`,
`Symbols` and `Refs` short-circuit to an empty, non-error result before
the worker pool is entered. -/
theorem worker_count_invariants {L K T : Type} (env : Env L K T)
    (jobs : Int) (files : List FileJob) (language : L) (query : K) :
    (files ≠ [] →
      1 ≤ effectiveWorkerCount jobs files ∧
      effectiveWorkerCount jobs files ≤ (files.length : Int))
  ∧ (∀ opts : QueryOptions, opts.Query ≠ "" → opts.File = "" →
      env.Get (if opts.Language = "" then "go" else opts.Language) = some language →
      env.newQuery opts.Query language = .ok query →
      env.collect (if opts.Path = "" then "." else opts.Path) language
        (if opts.MaxBytes = 0 then 2 * 1024 * 1024 else opts.MaxBytes) = .ok [] →
      Query env opts = .ok [])
  ∧ (∀ opts : SymbolsOptions, opts.File = "" →
      env.Get (if opts.Language = "" then "go" else opts.Language) = some language →
      env.newQuery (env.SymbolsQuery language) language = .ok query →
      env.collect (if opts.Path = "" then "." else opts.Path) language
        (if opts.MaxBytes = 0 then 2 * 1024 * 1024 else opts.MaxBytes) = .ok [] →
      Symbols env opts = .ok [])
  ∧ (∀ opts : RefsOptions, opts.Symbol ≠ "" → opts.File = "" →
      env.Get (if opts.Language = "" then "go" else opts.Language) = some language →
      env.newQuery (env.RefsQuery language) language = .ok query →
      env.collect (if opts.Path = "" then "." else opts.Path) language
        (if opts.MaxBytes = 0 then 2 * 1024 * 1024 else opts.MaxBytes) = .ok [] →
      Refs env opts = .ok { Symbol := opts.Symbol, References := [] }) := by
  refine ⟨?_, ?_, ?_, ?_⟩
  · intro hne
    have hlen : 0 < files.length := List.length_pos.mpr hne
    simp only [effectiveWorkerCount]
    constructor <;> split_ifs <;> omega
  · intro opts hq hf hget hnq hcol
    norm_num at hcol
    simp [Query, hq, hf, hget, hnq, hcol]
  · intro opts hf hget hnq hcol
    norm_num at hcol
    simp [Symbols, hf, hget, hnq, hcol]
  · intro opts hs hf hget hnq hcol
    norm_num at hcol
    simp [Refs, hs, hf, hget, hnq, hcol]

/-- Witness for C2: the clamp at a negative request over one file, and
the three aggregators over an environment whose scan finds no files. -/
theorem worker_count_invariants_witness :
    (1 ≤ effectiveWorkerCount (-7) [jobA] ∧
      effectiveWorkerCount (-7) [jobA] ≤ 1)
  ∧ Query unitEnv ⟨"(q)", "", "", "", 0, 0⟩ = .ok []
  ∧ Symbols unitEnv ⟨"", "", "", "", false, 0, 0, 0⟩ = .ok []
  ∧ Refs unitEnv ⟨"Foo", "", "", "", false, 0, 0⟩ = .ok ⟨"Foo", []⟩ := by
  have h := worker_count_invariants unitEnv (-7) [jobA] () ()
  refine ⟨h.1 (by simp), ?_, ?_, ?_⟩
  · exact h.2.1 ⟨"(q)", "", "", "", 0, 0⟩ (by decide) rfl rfl rfl rfl
  · exact h.2.2.1 ⟨"", "", "", "", false, 0, 0, 0⟩ rfl rfl rfl rfl
  · exact h.2.2.2 ⟨"Foo", "", "", "", false, 0, 0⟩ (by decide) rfl rfl rfl rfl

/-- C6: the configuration checks are fatal and happen before any file is
touched — the conclusion holds for EVERY environment, so the outcome is
independent of the scanner, reader and parser: an empty query text
(`Query`), an empty search symbol (`Refs`) and an unregistered language
(`Query`, `Symbols`, `Outline`, `Refs`) each yield an immediate error
and no results. -/
theorem config_errors_immediate {L K T : Type} (env : Env L K T) :
    (∀ opts : QueryOptions, opts.Query = "" →
      Query env opts = .error "query is required")
  ∧ (∀ opts : RefsOptions, opts.Symbol = "" →
      Refs env opts = .error "symbol is required")
  ∧ (∀ opts : QueryOptions, opts.Query ≠ "" →
      env.Get (if opts.Language = "" then "go" else opts.Language) = none →
      Query env opts = .error
        ((if opts.Language = "" then "go" else opts.Language) ++ " language not registered"))
  ∧ (∀ opts : SymbolsOptions,
      env.Get (if opts.Language = "" then "go" else opts.Language) = none →
      Symbols env opts = .error
        ((if opts.Language = "" then "go" else opts.Language) ++ " language not registered"))
  ∧ (∀ opts : OutlineOptions, opts.File ≠ "" →
      env.Get (if opts.Language = "" then "go" else opts.Language) = none →
      Outline env opts = .error
        ((if opts.Language = "" then "go" else opts.Language) ++ " language not registered"))
  ∧ (∀ opts : RefsOptions, opts.Symbol ≠ "" →
      env.Get (if opts.Language = "" then "go" else opts.Language) = none →
      Refs env opts = .error
        ((if opts.Language = "" then "go" else opts.Language) ++ " language not registered")) := by
  refine ⟨?_, ?_, ?_, ?_, ?_, ?_⟩
  · intro opts hq
    simp [Query, hq]
  · intro opts hs
    simp [Refs, hs]
  · intro opts hq hget
    simp [Query, hq, hget]
  · intro opts hget
    simp [Symbols, hget]
  · intro opts hf hget
    simp [Outline, hf, hget]
  · intro opts hs hget
    simp [Refs, hs, hget]

/-- Witness for C6 at concrete options and environments. -/
theorem config_errors_immediate_witness :
    Query unitEnv ⟨"", "go", ".", "", 4, 1⟩ = .error "query is required"
  ∧ Refs unitEnv ⟨"", "go", ".", "", false, 4, 1⟩ = .error "symbol is required"
  ∧ Query emptyRegistryEnv ⟨"(q)", "", ".", "", 4, 1⟩ = .error "go language not registered"
  ∧ Symbols emptyRegistryEnv ⟨"rust", ".", "", "all", false, 10, 4, 1⟩ =
      .error "rust language not registered"
  ∧ Outline emptyRegistryEnv ⟨"", "main.go", false, 5⟩ = .error "go language not registered"
  ∧ Refs emptyRegistryEnv ⟨"Foo", "", ".", "", false, 4, 1⟩ = .error "go language not registered" := by
  refine ⟨?_, ?_, ?_, ?_, ?_, ?_⟩
  · exact (config_errors_immediate unitEnv).1 _ rfl
  · exact (config_errors_immediate unitEnv).2.1 _ rfl
  · exact (config_errors_immediate emptyRegistryEnv).2.2.1 _ (by decide) rfl
  · exact (config_errors_immediate emptyRegistryEnv).2.2.2.1 _ rfl
  · exact (config_errors_immediate emptyRegistryEnv).2.2.2.2.1 _ (by decide) rfl
  · exact (config_errors_immediate emptyRegistryEnv).2.2.2.2.2 _ (by decide) rfl

/-- C9: before dispatch each aggregator replaces a zero worker count by
the host parallelism, a zero byte ceiling by the fixed 2 MiB cap (a zero
`MaxBytes` is NOT unlimited), and (for `Symbols`) an empty visibility
filter by `"all"`; the call's result equals the result of passing those
defaults explicitly. -/
theorem defaults_resolution {L K T : Type} (env : Env L K T)
    (qopts : QueryOptions) (sopts : SymbolsOptions) (ropts : RefsOptions) :
    Symbols env sopts = Symbols env { sopts with
        Visibility := if sopts.Visibility = "" then "all" else sopts.Visibility,
        Jobs := if sopts.Jobs = 0 then env.numCPU else sopts.Jobs,
        MaxBytes := if sopts.MaxBytes = 0 then 2 * 1024 * 1024 else sopts.MaxBytes }
  ∧ Query env qopts = Query env { qopts with
        Jobs := if qopts.Jobs = 0 then env.numCPU else qopts.Jobs,
        MaxBytes := if qopts.MaxBytes = 0 then 2 * 1024 * 1024 else qopts.MaxBytes }
  ∧ Refs env ropts = Refs env { ropts with
        Jobs := if ropts.Jobs = 0 then env.numCPU else ropts.Jobs,
        MaxBytes := if ropts.MaxBytes = 0 then 2 * 1024 * 1024 else ropts.MaxBytes } := by
  refine ⟨?_, ?_, ?_⟩
  · by_cases hv : sopts.Visibility = "" <;>
    by_cases hj : sopts.Jobs = 0 <;>
    by_cases hm : sopts.MaxBytes = 0 <;>
      simp [Symbols, hv, hj, hm, ite_self]
  · by_cases hj : qopts.Jobs = 0 <;>
    by_cases hm : qopts.MaxBytes = 0 <;>
      simp [Query, hj, hm, ite_self]
  · by_cases hj : ropts.Jobs = 0 <;>
    by_cases hm : ropts.MaxBytes = 0 <;>
      simp [Refs, hj, hm, ite_self]

end tsq
